import Mathlib

/-! Package `finserve`: the HTTP handlers of `cmd/finserve/main.go`.

A shallow embedding of the five route handlers registered in `main`, together
with the properties of their pagination, filtering, input validation and
profile handling.

Modelling conventions.

* Go `int` is a 64-bit two's-complement integer: values are `Int`s and every
  addition the handlers perform goes through `wrapInt`.
* Go `string` is a Lean `String` (valid UTF-8 only).
* A Go slice is a `List`; the capacity of a slice is taken equal to its length.
* A run-time panic (failed type assertion, slice bounds out of range) is an
  explicit `Response.panic`.
* Everything the handlers call but `main.go` does not define (the `fin` engine,
  the store, `date`, `strconv`, `uuid`, the Unicode case table) is a field of
  `World` or `Engine`; theorems quantify over all of them.
-/

set_option autoImplicit false

namespace Finserve

deriving instance DecidableEq for Except

/-! ## Go integers and slices -/

/-- Largest Go `int` on a 64-bit platform. -/
def maxInt : Int := 9223372036854775807

/-- Smallest Go `int` on a 64-bit platform. -/
def minInt : Int := -9223372036854775808

/-- Result of a Go `int` operation whose mathematical value is `x`: the value
is reduced modulo `2^64` into the range `minInt .. maxInt`. -/
def wrapInt (x : Int) : Int :=
  (x + 9223372036854775808) % 18446744073709551616 - 9223372036854775808

/-- Go slice expression `xs[:hi]`. It panics unless `0 <= hi <= cap(xs)`; the
capacity is taken to be the length. -/
def sliceTo {α : Type} (xs : List α) (hi : Int) : Except String (List α) :=
  if 0 ≤ hi ∧ hi ≤ (xs.length : Int) then .ok (xs.take hi.toNat)
  else .error "slice bounds out of range"

/-- Go index expression `xs[i]` for a constant index `i`. It panics unless
`i < len(xs)`. -/
def indexAt {α : Type} (xs : List α) (i : Nat) : Except String α :=
  match xs.get? i with
  | some x => .ok x
  | none => .error "index out of range"

/-! ## Go strings -/

/-- Case mapping of one rune as `strings.ToLower` applies it: ASCII letters are
mapped by the fixed offset, every rune from `utf8.RuneSelf` up goes through the
Unicode table `unicodeLower`. -/
def toLowerRune (unicodeLower : Char → Char) (c : Char) : Char :=
  if c.toNat < 128 then c.toLower else unicodeLower c

/-- Go `strings.ToLower`. -/
def ToLower (unicodeLower : Char → Char) (s : String) : String :=
  ⟨s.data.map (toLowerRune unicodeLower)⟩

/-- Test whether `sub` occurs in `s` starting at some position. -/
def containsChars : List Char → List Char → Bool
  | [], sub => sub.isEmpty
  | c :: cs, sub => sub.isPrefixOf (c :: cs) || containsChars cs sub

/-- Go `strings.Contains`. -/
def Contains (s sub : String) : Bool :=
  containsChars s.data sub.data

/-! ## Data model (package `fin`, as used by `main.go`) -/

/-- A calendar date (`date.Date`), counted in days. -/
abbrev Date := Int

/-- Modelled from the spec: the declaration of `fin.RecurringPayment`'s cadence
type is not part of the source files. A cadence is the rule describing
periodicity and an amount; `empty` is the Go zero value, the cadence that
cannot produce an occurrence date. -/
inductive Cadence where
  | empty
  | daily (amount : Int)
  | weekly (weekday : Nat) (amount : Int)
  | monthly (day : Nat) (amount : Int)
  deriving DecidableEq, Repr

/-- Modelled from the spec: the declaration of `fin.RecurringPayment` is not part
of the source files. `ID`, `Name`, `Enabled` and `Debt` are the fields `main.go`
reads and writes; `Cadence` is the field the spec's data model adds. -/
structure RecurringPayment where
  ID : String
  Name : String
  Enabled : Bool
  Debt : Bool
  Cadence : Cadence
  deriving DecidableEq, Repr

/-- One occurrence (`fin.Payment`): the fields `main.go` reads. -/
structure Payment where
  Date : Date
  RecurringPayment : RecurringPayment
  deriving DecidableEq, Repr

/-- A dynamically typed Go value (`any`) as stored in the profile map. -/
inductive Any where
  | null
  | str (s : String)
  | bool (b : Bool)
  | num (n : Int)
  deriving DecidableEq, Repr

/-- The authentication profile, a `map[string]any`, as a finite association
list; a key that is absent reads as the nil interface value. -/
abbrev Profile := List (String × Any)

/-- Go map read `profile[key]`. -/
def Profile.read (p : Profile) (key : String) : Any :=
  match p.lookup key with
  | some v => v
  | none => Any.null

/-- Go type assertion `v.(string)` in its single-value form. -/
def assertString : Any → Except String String
  | Any.str s => .ok s
  | _ => .error "interface conversion: interface {} is not string"

/-! ## Page data (package `page`, as used by `main.go`) -/

/-- Arguments of `page.PaymentsState`. -/
structure PaymentsState where
  CurrentPage : Int
  Query : String
  deriving DecidableEq, Repr

/-- Arguments of `page.HomeData`. -/
structure HomeData where
  RecurringPayments : List RecurringPayment
  Payments : List Payment
  PaymentsState : PaymentsState
  NextPayments : Option Int
  Email : String
  deriving DecidableEq, Repr

/-- The template a handler renders, with the arguments it passes. -/
inductive Component where
  | Home (data : HomeData)
  | Payments (payments : List Payment) (state : PaymentsState) (nextPage : Option Int)
  | RecurringPayment (email : String) (rp : Finserve.RecurringPayment)
      (payments : List Payment) (loadMoreSince : Option Date)
  | RecurringPaymentCreate (email : String)
  deriving DecidableEq, Repr

/-- What a handler does to the response writer. -/
inductive Response where
  | render (c : Component)
  | error (msg : String) (code : Nat)
  | redirect (url : String) (code : Nat)
  | panic (msg : String)
  deriving DecidableEq, Repr

/-! ## Collaborators -/

/-- The retrieval functions of package `fin`. -/
structure Engine where
  /-- Function `fin.PaymentsSinceN(rps, since, n)`. -/
  PaymentsSinceN : List RecurringPayment → Date → Int → List Payment
  /-- Function `fin.PaymentsSinceNFilter(rps, since, n, filter)`. -/
  PaymentsSinceNFilter :
    List RecurringPayment → Date → Int → (Payment → Bool) → List Payment
  /-- Method `rp.PaymentsSinceN(since, n)`. -/
  rpPaymentsSinceN : RecurringPayment → Date → Int → List Payment

/-- Everything else the handlers call. -/
structure World where
  /-- Value of `date.Today()`. -/
  Today : Date
  /-- Function `date.ParseISO`. -/
  ParseISO : String → Except String Date
  /-- Function `strconv.Atoi`. -/
  Atoi : String → Except String Int
  /-- Function `unicode.ToLower` on non-ASCII runes. -/
  unicodeLower : Char → Char
  /-- Value of `uuid.NewString()`. -/
  NewString : String
  /-- Method `store.RecurringPayments(ctx)`. -/
  storeRecurringPayments : Except String (List RecurringPayment)
  /-- Method `store.RecurringPayment(ctx, id)`. -/
  storeRecurringPayment : String → Except String RecurringPayment
  /-- Method `store.CreateRecurringPayment(ctx, rp)`. -/
  storeCreateRecurringPayment : RecurringPayment → Except String Unit

/-- A call a handler makes whose arguments matter to the properties below. -/
inductive Effect where
  | rpPaymentsSinceN (rp : RecurringPayment) (since : Date) (n : Int)
  | CreateRecurringPayment (rp : RecurringPayment)
  | Println (s : String)
  deriving DecidableEq, Repr

/-! ## Handlers of `main` -/

/-- The block `var email string; profile, ok := auth.ProfileFromContext(..);
if ok { email = profile["email"].(string) }` shared by three handlers.
`auth.ProfileFromContext` returning `ok = false` is `none`. -/
def profileEmail (profile : Option Profile) : Except String String :=
  match profile with
  | some p => assertString (p.read "email")
  | none => .ok ""

/-- The closure passed to `fin.PaymentsSinceNFilter` by `GET /render/payments`
(main.go lines 116-121). -/
def queryFilter (w : World) (q : String) (payment : Payment) : Bool :=
  if q = "" then true
  else Contains (ToLower w.unicodeLower payment.RecurringPayment.Name)
    (ToLower w.unicodeLower q)

/-- Handler of `GET /` (main.go lines 66-102); `q` is `r.URL.Query().Get("q")`. -/
def getRoot (w : World) (eng : Engine) (profile : Option Profile) (q : String) :
    Response :=
  match profileEmail profile with
  | .error m => .panic m
  | .ok email =>
    match w.storeRecurringPayments with
    | .error e => .error e 500
    | .ok rps =>
      let payments := eng.PaymentsSinceN rps w.Today 11
      let paged : Except String (Option Int × List Payment) :=
        if (payments.length : Int) = 11 then
          (sliceTo payments 10).map (fun ps => (some 20, ps))
        else .ok (none, payments)
      match paged with
      | .error m => .panic m
      | .ok (nextPayments, payments) =>
        let data : HomeData :=
          { RecurringPayments := rps
            Payments := payments
            PaymentsState := { CurrentPage := 10, Query := "" }
            NextPayments := nextPayments
            Email := email }
        let data :=
          if q ≠ "" then
            { data with
              RecurringPayments := rps.filter (fun rp =>
                Contains (ToLower w.unicodeLower rp.Name) (ToLower w.unicodeLower q)) }
          else data
        .render (.Home data)

/-- Handler of `GET /render/payments` (main.go lines 104-131); `sizeParam` and
`q` are `r.URL.Query().Get("size")` and `r.URL.Query().Get("q")`. -/
def getRenderPayments (w : World) (eng : Engine) (sizeParam q : String) : Response :=
  match w.Atoi sizeParam with
  | .error e => .error e 400
  | .ok size =>
    match w.storeRecurringPayments with
    | .error e => .error e 500
    | .ok rps =>
      let payments :=
        eng.PaymentsSinceNFilter rps w.Today (wrapInt (size + 1)) (queryFilter w q)
      let paged : Except String (Option Int × List Payment) :=
        if (payments.length : Int) = wrapInt (size + 1) then
          (sliceTo payments size).map (fun ps => (some (wrapInt (size + 10)), ps))
        else .ok (none, payments)
      match paged with
      | .error m => .panic m
      | .ok (nextPage, payments) =>
        .render (.Payments payments { CurrentPage := size, Query := q } nextPage)

/-- Handler of `GET /recurring-payments/{id}` (main.go lines 133-161); `id` is
`chi.URLParam(r, "id")` and `sinceParam` is `r.URL.Query().Get("since")`. The
second component lists the calls of `rp.PaymentsSinceN` the handler made. -/
def getRecurringPayment (w : World) (eng : Engine) (profile : Option Profile)
    (id sinceParam : String) : Response × List Effect :=
  match profileEmail profile with
  | .error m => (.panic m, [])
  | .ok email =>
    match w.storeRecurringPayment id with
    | .error e => (.error e 500, [])
    | .ok rp =>
      let parsed : Except String Date :=
        if sinceParam ≠ "" then w.ParseISO sinceParam else .ok w.Today
      match parsed with
      | .error e => (.error e 500, [])
      | .ok since =>
        let payments := eng.rpPaymentsSinceN rp since 6
        let log := [Effect.rpPaymentsSinceN rp since 6]
        let paged : Except String (Option Date × List Payment) :=
          if (payments.length : Int) = 6 then
            match indexAt payments 5 with
            | .error m => .error m
            | .ok p => (sliceTo payments 5).map (fun ps => (some p.Date, ps))
          else .ok (none, payments)
        match paged with
        | .error m => (.panic m, log)
        | .ok (loadMoreSince, payments) =>
          (.render (.RecurringPayment email rp payments loadMoreSince), log)

/-- Handler of `GET /create` (main.go lines 163-170). -/
def getCreate (profile : Option Profile) : Response :=
  match profileEmail profile with
  | .error m => .panic m
  | .ok email => .render (.RecurringPaymentCreate email)

/-- Handler of `POST /create` (main.go lines 172-189); `form` is the outcome of
`r.ParseForm()` with `r.Form.Get` as the function. Fields the composite literal
leaves out take their zero value. The second component lists the console
output and the store writes the handler made. -/
def postCreate (w : World) (form : Except String (String → String)) :
    Response × List Effect :=
  match form with
  | .error e => (.error e 500, [])
  | .ok get =>
    let rp : RecurringPayment :=
      { ID := w.NewString
        Name := get "name"
        Enabled := true
        Debt := decide (get "debt" = "on")
        Cadence := Cadence.empty }
    let log := [Effect.Println (get "debt"), Effect.CreateRecurringPayment rp]
    match w.storeCreateRecurringPayment rp with
    | .error e => (.error e 500, log)
    | .ok _ => (.redirect "/" 303, log)

/-! ## Sample collaborators

Concrete, executable collaborators on which the theorems below are
instantiated. -/

/-- Value of a string of decimal digits, `none` if another character occurs. -/
def digitsValue : List Char → Nat → Option Nat
  | [], acc => some acc
  | c :: cs, acc =>
    if c.isDigit then digitsValue cs (acc * 10 + (c.toNat - 48)) else none

/-- A decimal reading of `strconv.Atoi`: an optional sign, at least one digit,
and a range check. -/
def sampleAtoi (s : String) : Except String Int :=
  let (neg, ds) :=
    match s.data with
    | '-' :: cs => (true, cs)
    | '+' :: cs => (false, cs)
    | cs => (false, cs)
  if ds.isEmpty then .error "invalid syntax"
  else
    match digitsValue ds 0 with
    | none => .error "invalid syntax"
    | some v =>
      let x : Int := if neg then -(v : Int) else (v : Int)
      if minInt ≤ x ∧ x ≤ maxInt then .ok x else .error "value out of range"

/-- Three recurring payments. -/
def rent : RecurringPayment :=
  { ID := "a1", Name := "Rent", Enabled := true, Debt := false,
    Cadence := Cadence.monthly 1 900 }

/-- See `rent`. -/
def gym : RecurringPayment :=
  { ID := "b2", Name := "Gym", Enabled := true, Debt := false,
    Cadence := Cadence.weekly 3 15 }

/-- The occurrences of `rent` every ten days from day 100 down to day 0. -/
def rentDates : List Date := [100, 90, 80, 70, 60, 50, 40, 30, 20, 10, 0]

/-- A store holding `rent` and `gym`, on day 100. -/
def sampleWorld : World :=
  { Today := 100
    ParseISO := fun s =>
      if s = "1970-02-20" then .ok 50 else .error "date: cannot parse"
    Atoi := sampleAtoi
    unicodeLower := id
    NewString := "c3"
    storeRecurringPayments := .ok [rent, gym]
    storeRecurringPayment := fun id =>
      if id = "a1" then .ok rent else if id = "b2" then .ok gym
      else .error "not found"
    storeCreateRecurringPayment := fun _ => .ok () }

/-- The merged occurrences of `rent` (every ten days) and `gym` (days 95 and 45)
on or before a date, most recent first. -/
def sampleMerged (since : Date) : List Payment :=
  ([⟨100, rent⟩, ⟨95, gym⟩, ⟨90, rent⟩, ⟨80, rent⟩, ⟨70, rent⟩, ⟨60, rent⟩,
    ⟨50, rent⟩, ⟨45, gym⟩, ⟨40, rent⟩, ⟨30, rent⟩, ⟨20, rent⟩, ⟨10, rent⟩,
    ⟨0, rent⟩] : List Payment).filter (fun p => decide (p.Date ≤ since))

/-- An engine over the fixed occurrences of `sampleMerged` and `rentDates`. -/
def sampleEngine : Engine :=
  { PaymentsSinceN := fun _ since n => (sampleMerged since).take n.toNat
    PaymentsSinceNFilter := fun _ since n filter =>
      ((sampleMerged since).filter filter).take n.toNat
    rpPaymentsSinceN := fun rp since n =>
      ((rentDates.filter (fun d => decide (d ≤ since))).take n.toNat).map
        (fun d => ⟨d, rp⟩) }

/-! ## Occurrence sequences

The assumptions about the retrieval of a single recurring payment are stated
against the set of its occurrence dates; the sequence may be finite or
infinite. -/

/-- The list `ds` is an initial segment of the strictly decreasing sequence of
the occurrence dates on or before `a`: it is strictly decreasing, holds only
occurrence dates on or before `a`, and every other occurrence date on or before
`a` lies below all of `ds`. -/
def OccurrencePrefix (isOcc : Date → Prop) (a : Date) (ds : List Date) : Prop :=
  ds.Pairwise (fun x y => y < x) ∧
  (∀ d ∈ ds, isOcc d ∧ d ≤ a) ∧
  (∀ e, isOcc e → e ≤ a → e ∈ ds ∨ ∀ d ∈ ds, e < d)

/-- The list `ds` is the first `k` elements of the strictly decreasing sequence
of the occurrence dates on or before `a`, or the whole sequence if that has
fewer than `k` elements. -/
def FirstOccurrences (isOcc : Date → Prop) (a : Date) (k : Nat) (ds : List Date) : Prop :=
  OccurrencePrefix isOcc a ds ∧ ds.length ≤ k ∧
  (ds.length < k → ∀ e, isOcc e → e ≤ a → e ∈ ds)

/-! ## Letter case of ASCII strings -/

/-- Every character of the string is below `utf8.RuneSelf`. -/
def IsASCII (s : String) : Prop :=
  ∀ c ∈ s.data, c.toNat < 128

/-- The characters `c` and `d` are equal or are the upper-case and lower-case
form of one ASCII letter. -/
def CaseVariant (c d : Char) : Prop :=
  c = d ∨
  (65 ≤ c.toNat ∧ c.toNat ≤ 90 ∧ d.toNat = c.toNat + 32) ∨
  (65 ≤ d.toNat ∧ d.toNat ≤ 90 ∧ c.toNat = d.toNat + 32)

/-- The string `t` is `s` with the letter case of some letters changed. -/
def SameUpToCase (s t : String) : Prop :=
  List.Forall₂ CaseVariant s.data t.data

/-! ## Properties of responses -/

/-- The name of the payment's recurring payment contains `q`, both lower-cased. -/
def nameMatches (w : World) (q : String) (rp : RecurringPayment) : Bool :=
  Contains (ToLower w.unicodeLower rp.Name) (ToLower w.unicodeLower q)

/-- Every payment in the page data of the response belongs to a recurring
payment whose name contains `q` without regard to letter case. A response that
renders no payments satisfies this. -/
def renderedPaymentsMatch (w : World) (q : String) : Response → Bool
  | .render (.Home data) => data.Payments.all (fun p => nameMatches w q p.RecurringPayment)
  | .render (.Payments payments _ _) =>
    payments.all (fun p => nameMatches w q p.RecurringPayment)
  | .render (.RecurringPayment _ _ payments _) =>
    payments.all (fun p => nameMatches w q p.RecurringPayment)
  | _ => true

/-- A submitted creation form with the name `Netflix` and the debt box ticked. -/
def sampleForm (key : String) : String :=
  if key = "name" then "Netflix" else if key = "debt" then "on" else ""

/-! ## Go integers and slices: lemmas -/

theorem wrapInt_eq_self (x : Int) (hlo : minInt ≤ x) (hhi : x ≤ maxInt) :
    wrapInt x = x := by
  unfold wrapInt
  unfold minInt at hlo
  unfold maxInt at hhi
  omega

theorem wrapInt_overflow (x : Int) (hlo : maxInt < x)
    (hhi : x ≤ maxInt + maxInt) : wrapInt x < 0 := by
  unfold wrapInt
  unfold maxInt at hlo hhi
  omega

theorem sliceTo_eq_ok {α : Type} (xs : List α) (hi : Int) (h0 : 0 ≤ hi)
    (hlen : hi ≤ (xs.length : Int)) : sliceTo xs hi = .ok (xs.take hi.toNat) := by
  unfold sliceTo
  rw [if_pos ⟨h0, hlen⟩]

/-! ## Count-based pagination (`GET /render/payments`, `GET /`) -/

/-- The outcome of `GET /render/payments` once the size parsed, the store
answered and no addition overflowed, in terms of the list the retrieval
returned. -/
theorem getRenderPayments_eq (w : World) (eng : Engine) (sizeParam q : String)
    (size : Int) (rps : List RecurringPayment)
    (hparse : w.Atoi sizeParam = .ok size)
    (hstore : w.storeRecurringPayments = .ok rps)
    (h0 : 0 ≤ size) (hmax : size + 10 ≤ maxInt) :
    getRenderPayments w eng sizeParam q =
      if ((eng.PaymentsSinceNFilter rps w.Today (size + 1) (queryFilter w q)).length : Int)
          = size + 1 then
        .render (.Payments
          ((eng.PaymentsSinceNFilter rps w.Today (size + 1) (queryFilter w q)).take
            size.toNat)
          { CurrentPage := size, Query := q } (some (size + 10)))
      else
        .render (.Payments
          (eng.PaymentsSinceNFilter rps w.Today (size + 1) (queryFilter w q))
          { CurrentPage := size, Query := q } none) := by
  have h1 : wrapInt (size + 1) = size + 1 :=
    wrapInt_eq_self _ (by unfold minInt; omega) (by unfold maxInt at *; omega)
  have h10 : wrapInt (size + 10) = size + 10 :=
    wrapInt_eq_self _ (by unfold minInt; omega) hmax
  unfold getRenderPayments
  simp only [hparse, hstore, h1, h10]
  split_ifs with hlen
  · rw [sliceTo_eq_ok _ _ h0 (by omega)]
    rfl
  · rfl

/-- The outcome of `GET /` once the profile yielded an email and the store
answered, in terms of the list the retrieval returned. -/
theorem getRoot_eq (w : World) (eng : Engine) (profile : Option Profile)
    (q email : String) (rps : List RecurringPayment)
    (hemail : profileEmail profile = .ok email)
    (hstore : w.storeRecurringPayments = .ok rps) :
    ∃ shown : List RecurringPayment,
      getRoot w eng profile q =
        if (eng.PaymentsSinceN rps w.Today 11).length = 11 then
          .render (.Home
            { RecurringPayments := shown
              Payments := (eng.PaymentsSinceN rps w.Today 11).take 10
              PaymentsState := { CurrentPage := 10, Query := "" }
              NextPayments := some 20
              Email := email })
        else
          .render (.Home
            { RecurringPayments := shown
              Payments := eng.PaymentsSinceN rps w.Today 11
              PaymentsState := { CurrentPage := 10, Query := "" }
              NextPayments := none
              Email := email }) := by
  refine ⟨if q ≠ "" then rps.filter (fun rp =>
    Contains (ToLower w.unicodeLower rp.Name) (ToLower w.unicodeLower q)) else rps, ?_⟩
  unfold getRoot
  simp only [hemail, hstore]
  by_cases hlen : (eng.PaymentsSinceN rps w.Today 11).length = 11
  · have hlen2 : ((eng.PaymentsSinceN rps w.Today 11).length : Int) = 11 := by omega
    rw [if_pos hlen2, if_pos hlen, sliceTo_eq_ok _ _ (by omega) (by omega)]
    by_cases hq : q = "" <;> simp [hq, Except.map]
  · have hlen2 : ¬ ((eng.PaymentsSinceN rps w.Today 11).length : Int) = 11 := by omega
    rw [if_neg hlen2, if_neg hlen]
    by_cases hq : q = "" <;> simp [hq]

/-- At the largest size the addition `size + 1` wraps around: the handler asks
the retrieval for `minInt` items and renders its answer without a next page. -/
theorem getRenderPayments_maxInt (w : World) (eng : Engine) (sizeParam q : String)
    (rps : List RecurringPayment)
    (hparse : w.Atoi sizeParam = .ok maxInt)
    (hstore : w.storeRecurringPayments = .ok rps) :
    getRenderPayments w eng sizeParam q =
      .render (.Payments (eng.PaymentsSinceNFilter rps w.Today minInt (queryFilter w q))
        { CurrentPage := maxInt, Query := q } none) := by
  have hwrap : wrapInt (maxInt + 1) = minInt := by decide
  unfold getRenderPayments
  simp only [hparse, hstore, hwrap]
  rw [if_neg (by unfold minInt; omega)]

/-- C1. Count-based pagination rule: with `L` the list the retrieval returned
when asked for `size + 1` items, `GET /render/payments` renders the first `size`
items of `L` and advertises the cursor `size + 10` when `L` has exactly
`size + 1` items, and renders `L` unchanged without a next page when `L` has
fewer; `GET /` does the same with 11 requested, 10 shown, cursor 20 and current
page 10. -/
theorem count_pagination_rule (w : World) (eng : Engine) (profile : Option Profile)
    (sizeParam q email : String) (size : Int) (rps : List RecurringPayment)
    (hparse : w.Atoi sizeParam = .ok size)
    (hstore : w.storeRecurringPayments = .ok rps)
    (hemail : profileEmail profile = .ok email)
    (h0 : 0 ≤ size) (hmax : size + 10 ≤ maxInt) :
    (((eng.PaymentsSinceNFilter rps w.Today (size + 1) (queryFilter w q)).length : Int)
        = size + 1 →
      getRenderPayments w eng sizeParam q =
        .render (.Payments
          ((eng.PaymentsSinceNFilter rps w.Today (size + 1) (queryFilter w q)).take
            size.toNat)
          { CurrentPage := size, Query := q } (some (size + 10)))) ∧
    (((eng.PaymentsSinceNFilter rps w.Today (size + 1) (queryFilter w q)).length : Int)
        < size + 1 →
      getRenderPayments w eng sizeParam q =
        .render (.Payments
          (eng.PaymentsSinceNFilter rps w.Today (size + 1) (queryFilter w q))
          { CurrentPage := size, Query := q } none)) ∧
    ((eng.PaymentsSinceN rps w.Today 11).length = 11 →
      ∃ data : HomeData, getRoot w eng profile q = .render (.Home data) ∧
        data.Payments = (eng.PaymentsSinceN rps w.Today 11).take 10 ∧
        data.NextPayments = some 20 ∧ data.PaymentsState.CurrentPage = 10) ∧
    ((eng.PaymentsSinceN rps w.Today 11).length < 11 →
      ∃ data : HomeData, getRoot w eng profile q = .render (.Home data) ∧
        data.Payments = eng.PaymentsSinceN rps w.Today 11 ∧
        data.NextPayments = none ∧ data.PaymentsState.CurrentPage = 10) := by
  have hr := getRenderPayments_eq w eng sizeParam q size rps hparse hstore h0 hmax
  obtain ⟨shown, hh⟩ := getRoot_eq w eng profile q email rps hemail hstore
  refine ⟨?_, ?_, ?_, ?_⟩
  · intro hlen
    rw [hr, if_pos hlen]
  · intro hlen
    rw [hr, if_neg (by omega)]
  · intro hlen
    rw [hh, if_pos hlen]
    exact ⟨_, rfl, rfl, rfl, rfl⟩
  · intro hlen
    rw [hh, if_neg (by omega)]
    exact ⟨_, rfl, rfl, rfl, rfl⟩

/-- Instance of `count_pagination_rule`: with page size 2 the sample engine
returns 3 items, of which the first 2 are rendered with cursor 12. -/
theorem count_pagination_rule_witness :
    getRenderPayments sampleWorld sampleEngine "2" "" =
      .render (.Payments [⟨100, rent⟩, ⟨95, gym⟩] { CurrentPage := 2, Query := "" }
        (some 12)) :=
  (count_pagination_rule sampleWorld sampleEngine none "2" "" "" 2 [rent, gym]
    (by decide) rfl rfl (by decide) (by decide)).1 (by decide)

/-- C9. Slice bounds in `GET /render/payments`: for a size that parsed, the
handler ends in a run-time panic exactly when the size is `-1` and the retrieval,
asked for 0 items, returned the empty list; so the truncation `payments[:size]`
is out of range for `size = -1` and in range for every other size. -/
theorem getRenderPayments_panic_iff (w : World) (eng : Engine) (sizeParam q : String)
    (size : Int) (rps : List RecurringPayment)
    (hparse : w.Atoi sizeParam = .ok size)
    (hstore : w.storeRecurringPayments = .ok rps)
    (hlo : minInt ≤ size) (hhi : size ≤ maxInt) :
    (∃ m, getRenderPayments w eng sizeParam q = .panic m) ↔
      (size = -1 ∧ eng.PaymentsSinceNFilter rps w.Today 0 (queryFilter w q) = []) := by
  unfold getRenderPayments
  simp only [hparse, hstore]
  constructor
  · rintro ⟨m, hm⟩
    by_cases hlen : ((eng.PaymentsSinceNFilter rps w.Today (wrapInt (size + 1))
        (queryFilter w q)).length : Int) = wrapInt (size + 1)
    · rw [if_pos hlen] at hm
      have hwrap : wrapInt (size + 1) = size + 1 := by
        by_cases hs : size = maxInt
        · exfalso
          have := wrapInt_overflow (size + 1) (by omega) (by unfold maxInt at *; omega)
          omega
        · exact wrapInt_eq_self _ (by unfold minInt at *; omega) (by omega)
      rw [hwrap] at hlen hm
      by_cases hneg : size < 0
      · have hs : size = -1 := by omega
        subst hs
        refine ⟨rfl, ?_⟩
        apply List.eq_nil_of_length_eq_zero
        have : ((eng.PaymentsSinceNFilter rps w.Today (-1 + 1)
          (queryFilter w q)).length : Int) = 0 := by omega
        simpa using this
      · rw [sliceTo_eq_ok _ _ (by omega) (by omega)] at hm
        simp [Except.map] at hm
    · rw [if_neg hlen] at hm
      simp at hm
  · rintro ⟨hs, hnil⟩
    subst hs
    have hwrap : wrapInt (-1 + 1) = 0 := by decide
    rw [hwrap, hnil]
    exact ⟨_, rfl⟩

/-- Instance of `getRenderPayments_panic_iff`: the request
`GET /render/payments?size=-1` ends in a panic. -/
theorem getRenderPayments_panic_iff_witness :
    ∃ m, getRenderPayments sampleWorld sampleEngine "-1" "" = .panic m :=
  (getRenderPayments_panic_iff sampleWorld sampleEngine "-1" "" (-1) [rent, gym]
    (by decide) rfl (by decide) (by decide)).2 ⟨rfl, by decide⟩

/-- Taking `a + b` items is taking `a` items and then the next `b` items after
those taken. -/
theorem take_add_eq_append {α : Type} (S : List α) (a b : Nat) :
    S.take (a + b) = S.take a ++ (S.drop (S.take a).length).take b := by
  rw [List.take_add, List.length_take]
  by_cases h : a ≤ S.length
  · rw [Nat.min_eq_left h]
  · have h1 : S.length ≤ a := by omega
    rw [Nat.min_eq_right h1, List.drop_of_length_le h1, List.drop_of_length_le (le_refl _)]

/-- The outcome of `GET /render/payments` once the size parsed, the store
answered and `size + 1` did not overflow; the cursor is the Go sum
`size + 10`. -/
theorem getRenderPayments_eq_wrap (w : World) (eng : Engine) (sizeParam q : String)
    (size : Int) (rps : List RecurringPayment)
    (hparse : w.Atoi sizeParam = .ok size)
    (hstore : w.storeRecurringPayments = .ok rps)
    (h0 : 0 ≤ size) (hmax : size < maxInt) :
    getRenderPayments w eng sizeParam q =
      if ((eng.PaymentsSinceNFilter rps w.Today (size + 1) (queryFilter w q)).length : Int)
          = size + 1 then
        .render (.Payments
          ((eng.PaymentsSinceNFilter rps w.Today (size + 1) (queryFilter w q)).take
            size.toNat)
          { CurrentPage := size, Query := q } (some (wrapInt (size + 10))))
      else
        .render (.Payments
          (eng.PaymentsSinceNFilter rps w.Today (size + 1) (queryFilter w q))
          { CurrentPage := size, Query := q } none) := by
  have h1 : wrapInt (size + 1) = size + 1 :=
    wrapInt_eq_self _ (by unfold minInt; omega) (by omega)
  unfold getRenderPayments
  simp only [hparse, hstore, h1]
  split_ifs with hlen
  · rw [sliceTo_eq_ok _ _ h0 (by omega)]
    rfl
  · rfl

/-- C2 as stated fails at the largest size: the sample retrieval returns the
first `k` of the 11 payments matching `rent` for every `k >= 0`, yet
`GET /render/payments?size=9223372036854775807&q=rent` renders no payment,
because `size + 1` wraps around to `minInt`. -/
theorem count_pagination_exact_fails_at_maxInt :
    (∀ k : Int, 0 ≤ k →
      sampleEngine.PaymentsSinceNFilter [rent, gym] sampleWorld.Today k
          (queryFilter sampleWorld "rent") =
        ((sampleMerged 100).filter (queryFilter sampleWorld "rent")).take k.toNat) ∧
    sampleWorld.Atoi "9223372036854775807" = .ok 9223372036854775807 ∧
    ((sampleMerged 100).filter (queryFilter sampleWorld "rent")).length = 11 ∧
    getRenderPayments sampleWorld sampleEngine "9223372036854775807" "rent" =
      .render (.Payments [] { CurrentPage := 9223372036854775807, Query := "rent" } none) :=
  ⟨fun _ _ => rfl, by decide, by decide, by decide⟩

/-- C2, amended. Exactness and continuity of the count-based policy for every
size `n` with `0 <= n < maxInt`: when the filtered retrieval asked for `k >= 0`
items returns the first `k` items of the matching sequence `S`,
`GET /render/payments` with size `n` renders the first `n` items of `S` (all of
`S` if it has fewer), advertises no next page if `S` has at most `n` items and
advertises one if it has at least `n + 1`, with the Go sum `n + 10` as cursor,
which is `n + 10` whenever `n + 10 <= maxInt`; and when `n + 11 <= maxInt` the
request with size `n + 10` renders the previous page followed by the next 10
items of `S`. -/
theorem count_pagination_exact (w : World) (eng : Engine) (s1 q : String)
    (n : Int) (rps : List RecurringPayment) (S : List Payment)
    (hparse1 : w.Atoi s1 = .ok n)
    (hstore : w.storeRecurringPayments = .ok rps)
    (h0 : 0 ≤ n) (hmax : n < maxInt)
    (hret : ∀ k : Int, 0 ≤ k →
      eng.PaymentsSinceNFilter rps w.Today k (queryFilter w q) = S.take k.toNat) :
    ∃ (page1 : List Payment) (next1 : Option Int),
      getRenderPayments w eng s1 q =
        .render (.Payments page1 { CurrentPage := n, Query := q } next1) ∧
      ((S.length : Int) ≤ n → next1 = none) ∧
      (n + 1 ≤ (S.length : Int) → next1 = some (wrapInt (n + 10))) ∧
      (n + 1 ≤ (S.length : Int) → n + 10 ≤ maxInt → next1 = some (n + 10)) ∧
      page1 = S.take n.toNat ∧
      ((S.length : Int) < n → page1 = S) ∧
      (n + 11 ≤ maxInt → ∀ s2 : String, w.Atoi s2 = .ok (n + 10) →
        ∃ (page2 : List Payment) (next2 : Option Int),
          getRenderPayments w eng s2 q =
            .render (.Payments page2 { CurrentPage := n + 10, Query := q } next2) ∧
          page2 = page1 ++ (S.drop page1.length).take 10) := by
  have key : ∀ (s : String) (m : Int), w.Atoi s = .ok m → 0 ≤ m → m < maxInt →
      getRenderPayments w eng s q =
        .render (.Payments (S.take m.toNat) { CurrentPage := m, Query := q }
          (if m + 1 ≤ (S.length : Int) then some (wrapInt (m + 10)) else none)) := by
    intro s m hs hm0 hmmax
    rw [getRenderPayments_eq_wrap w eng s q m rps hs hstore hm0 hmmax,
      hret (m + 1) (by omega)]
    have htn : (m + 1).toNat = m.toNat + 1 := by omega
    by_cases hlen : m + 1 ≤ (S.length : Int)
    · have hl : ((S.take (m + 1).toNat).length : Int) = m + 1 := by
        rw [List.length_take]; omega
      rw [if_pos hl, if_pos hlen, List.take_take, htn, Nat.min_eq_left (by omega)]
    · have hl : ¬ ((S.take (m + 1).toNat).length : Int) = m + 1 := by
        rw [List.length_take]; omega
      rw [if_neg hl, if_neg hlen, List.take_of_length_le (by omega),
        List.take_of_length_le (by omega)]
  refine ⟨S.take n.toNat, _, key s1 n hparse1 h0 hmax, ?_, ?_, ?_, rfl, ?_, ?_⟩
  · intro h
    rw [if_neg (by omega)]
  · intro h
    rw [if_pos h]
  · intro h h10
    rw [if_pos h, wrapInt_eq_self _ (by unfold minInt; omega) h10]
  · intro h
    exact List.take_of_length_le (by omega)
  · intro h11 s2 hparse2
    refine ⟨S.take (n + 10).toNat, _,
      key s2 (n + 10) hparse2 (by omega) (by omega), ?_⟩
    have htn : (n + 10).toNat = n.toNat + 10 := by omega
    rw [htn]
    exact take_add_eq_append S n.toNat 10

/-- Instance of `count_pagination_exact`: the sample engine with the query
`rent`, sizes 2 and 12. -/
theorem count_pagination_exact_witness :
    ∃ (page1 : List Payment) (next1 : Option Int),
      getRenderPayments sampleWorld sampleEngine "2" "rent" =
        .render (.Payments page1 { CurrentPage := 2, Query := "rent" } next1) ∧
      next1 = some 12 ∧
      page1 = [⟨100, rent⟩, ⟨90, rent⟩] ∧
      ∃ (page2 : List Payment) (next2 : Option Int),
        getRenderPayments sampleWorld sampleEngine "12" "rent" =
          .render (.Payments page2 { CurrentPage := 12, Query := "rent" } next2) ∧
        page2 = page1 ++
          (((sampleMerged 100).filter (queryFilter sampleWorld "rent")).drop
            page1.length).take 10 :=
  match count_pagination_exact sampleWorld sampleEngine "2" "rent" 2 [rent, gym]
    ((sampleMerged 100).filter (queryFilter sampleWorld "rent"))
    (by decide) rfl (by decide) (by decide) (fun _ _ => rfl) with
  | ⟨page1, next1, h1, _, _, h4, h5, _, h7⟩ =>
    ⟨page1, next1, h1, h4 (by decide) (by decide), h5.trans (by decide),
      h7 (by decide) "12" (by decide)⟩

/-! ## Date-cursor pagination (`GET /recurring-payments/{id}`) -/

/-- The anchor `GET /recurring-payments/{id}` computes from the `since`
parameter (main.go lines 145-153). -/
theorem getRecurringPayment_eq (w : World) (eng : Engine) (profile : Option Profile)
    (id sinceParam email : String) (rp : RecurringPayment) (since : Date)
    (hemail : profileEmail profile = .ok email)
    (hstore : w.storeRecurringPayment id = .ok rp)
    (hsince : (sinceParam = "" ∧ since = w.Today) ∨
      (sinceParam ≠ "" ∧ w.ParseISO sinceParam = .ok since)) :
    getRecurringPayment w eng profile id sinceParam =
      (if (eng.rpPaymentsSinceN rp since 6).length = 6 then
        .render (.RecurringPayment email rp ((eng.rpPaymentsSinceN rp since 6).take 5)
          (((eng.rpPaymentsSinceN rp since 6).get? 5).map Payment.Date))
      else
        .render (.RecurringPayment email rp (eng.rpPaymentsSinceN rp since 6) none),
      [Effect.rpPaymentsSinceN rp since 6]) := by
  have hparsed : (if sinceParam ≠ "" then w.ParseISO sinceParam else .ok w.Today)
      = .ok since := by
    rcases hsince with ⟨h1, h2⟩ | ⟨h1, h2⟩
    · rw [if_neg (by simpa using h1), h2]
    · rw [if_pos h1, h2]
  unfold getRecurringPayment
  simp only [hemail, hstore, hparsed]
  by_cases hlen : (eng.rpPaymentsSinceN rp since 6).length = 6
  · have hlen2 : ((eng.rpPaymentsSinceN rp since 6).length : Int) = 6 := by omega
    obtain ⟨p, hp⟩ : ∃ p, (eng.rpPaymentsSinceN rp since 6).get? 5 = some p := by
      rw [List.get?_eq_get (by omega)]
      exact ⟨_, rfl⟩
    rw [if_pos hlen2, if_pos hlen]
    simp only [indexAt, hp]
    rw [sliceTo_eq_ok _ _ (by omega) (by omega)]
    rfl
  · have hlen2 : ¬ ((eng.rpPaymentsSinceN rp since 6).length : Int) = 6 := by omega
    rw [if_neg hlen2, if_neg hlen]

/-- C3. Date-cursor rule of the detail view: the handler asks
`rp.PaymentsSinceN(since, 6)` once; if the returned list `L` has exactly 6 items
it renders the first 5 of them and advertises the `Date` of the 6th as the
load-more cursor; if `L` has fewer than 6 items it renders `L` unchanged and
advertises no cursor. -/
theorem date_cursor_rule (w : World) (eng : Engine) (profile : Option Profile)
    (id sinceParam email : String) (rp : RecurringPayment) (since : Date)
    (hemail : profileEmail profile = .ok email)
    (hstore : w.storeRecurringPayment id = .ok rp)
    (hsince : (sinceParam = "" ∧ since = w.Today) ∨
      (sinceParam ≠ "" ∧ w.ParseISO sinceParam = .ok since)) :
    (getRecurringPayment w eng profile id sinceParam).2 =
      [Effect.rpPaymentsSinceN rp since 6] ∧
    ((eng.rpPaymentsSinceN rp since 6).length = 6 →
      ∃ p6 : Payment, (eng.rpPaymentsSinceN rp since 6).get? 5 = some p6 ∧
        (getRecurringPayment w eng profile id sinceParam).1 =
          .render (.RecurringPayment email rp ((eng.rpPaymentsSinceN rp since 6).take 5)
            (some p6.Date))) ∧
    ((eng.rpPaymentsSinceN rp since 6).length < 6 →
      (getRecurringPayment w eng profile id sinceParam).1 =
        .render (.RecurringPayment email rp (eng.rpPaymentsSinceN rp since 6) none)) := by
  rw [getRecurringPayment_eq w eng profile id sinceParam email rp since hemail hstore hsince]
  refine ⟨rfl, ?_, ?_⟩
  · intro hlen
    obtain ⟨p, hp⟩ : ∃ p, (eng.rpPaymentsSinceN rp since 6).get? 5 = some p := by
      rw [List.get?_eq_get (by omega)]
      exact ⟨_, rfl⟩
    refine ⟨p, hp, ?_⟩
    simp only [if_pos hlen, hp, Option.map]
  · intro hlen
    simp only [if_neg (show ¬ (eng.rpPaymentsSinceN rp since 6).length = 6 by omega)]

/-- Instance of `date_cursor_rule`: the detail view of `rent` on day 100 shows
days 100 to 60 and advertises day 50. -/
theorem date_cursor_rule_witness :
    ∃ p6 : Payment, (sampleEngine.rpPaymentsSinceN rent 100 6).get? 5 = some p6 ∧
      (getRecurringPayment sampleWorld sampleEngine none "a1" "").1 =
        .render (.RecurringPayment "" rent ((sampleEngine.rpPaymentsSinceN rent 100 6).take 5)
          (some p6.Date)) :=
  (date_cursor_rule sampleWorld sampleEngine none "a1" "" "" rent 100 rfl rfl
    (Or.inl ⟨rfl, rfl⟩)).2.1 (by decide)

/-- C7. Validation of the `since` parameter of the detail view: a non-empty
value that does not parse makes the handler answer with an error without
calling `rp.PaymentsSinceN`; an empty value makes today the anchor of the one
retrieval call; a value that parses makes the parsed date the anchor. -/
theorem since_validation (w : World) (eng : Engine) (profile : Option Profile)
    (id sinceParam : String) :
    (sinceParam ≠ "" → ∀ e, w.ParseISO sinceParam = .error e →
      (getRecurringPayment w eng profile id sinceParam).2 = [] ∧
      (∀ c, (getRecurringPayment w eng profile id sinceParam).1 ≠ .render c) ∧
      (∀ email rp, profileEmail profile = .ok email → w.storeRecurringPayment id = .ok rp →
        (getRecurringPayment w eng profile id sinceParam).1 = .error e 500)) ∧
    (∀ email rp, profileEmail profile = .ok email → w.storeRecurringPayment id = .ok rp →
      (sinceParam = "" →
        (getRecurringPayment w eng profile id sinceParam).2 =
          [Effect.rpPaymentsSinceN rp w.Today 6]) ∧
      (sinceParam ≠ "" → ∀ d, w.ParseISO sinceParam = .ok d →
        (getRecurringPayment w eng profile id sinceParam).2 =
          [Effect.rpPaymentsSinceN rp d 6])) := by
  refine ⟨?_, ?_⟩
  · intro hne e he
    have hparsed : (if sinceParam ≠ "" then w.ParseISO sinceParam else .ok w.Today)
        = .error e := by rw [if_pos hne, he]
    unfold getRecurringPayment
    cases hp : profileEmail profile with
    | error m => simp
    | ok email =>
      cases hs : w.storeRecurringPayment id with
      | error m => simp
      | ok rp => simp [hparsed]
  · intro email rp hemail hstore
    refine ⟨?_, ?_⟩
    · intro h
      rw [getRecurringPayment_eq w eng profile id sinceParam email rp w.Today hemail hstore
        (Or.inl ⟨h, rfl⟩)]
    · intro h d hd
      rw [getRecurringPayment_eq w eng profile id sinceParam email rp d hemail hstore
        (Or.inr ⟨h, hd⟩)]

/-- Instance of `since_validation`: the value `yesterday` is rejected with
status 500 and no retrieval call. -/
theorem since_validation_witness :
    (getRecurringPayment sampleWorld sampleEngine none "a1" "yesterday").2 = [] ∧
      (getRecurringPayment sampleWorld sampleEngine none "a1" "yesterday").1 =
        .error "date: cannot parse" 500 :=
  have h := (since_validation sampleWorld sampleEngine none "a1" "yesterday").1
    (by decide) "date: cannot parse" (by decide)
  ⟨h.1, h.2.2 "" rent rfl rfl⟩

/-! ## Occurrence sequences: lemmas -/

/-- An initial segment of an initial segment of the occurrence sequence is one. -/
theorem OccurrencePrefix.of_append {isOcc : Date → Prop} {a : Date} {xs ys : List Date}
    (h : OccurrencePrefix isOcc a (xs ++ ys)) : OccurrencePrefix isOcc a xs := by
  obtain ⟨hpw, hmem, hall⟩ := h
  rw [List.pairwise_append] at hpw
  refine ⟨hpw.1, fun d hd => hmem d (List.mem_append_left _ hd), ?_⟩
  intro e he hea
  rcases hall e he hea with hin | hlt
  · rcases List.mem_append.1 hin with hx | hy
    · exact Or.inl hx
    · exact Or.inr (fun d hd => hpw.2.2 d hd e hy)
  · exact Or.inr (fun d hd => hlt d (List.mem_append_left _ hd))

/-- The segment up to an occurrence `d` and a segment starting at `d` join into
one segment. -/
theorem OccurrencePrefix.glue {isOcc : Date → Prop} {a d : Date} {front rest : List Date}
    (h1 : OccurrencePrefix isOcc a (front ++ [d]))
    (h2 : OccurrencePrefix isOcc d (d :: rest)) :
    OccurrencePrefix isOcc a (front ++ d :: rest) := by
  obtain ⟨hpw1, hmem1, hall1⟩ := h1
  obtain ⟨hpw2, hmem2, hall2⟩ := h2
  rw [List.pairwise_append] at hpw1
  have hda : d ≤ a := (hmem1 d (by simp)).2
  have hfront : ∀ x ∈ front, d < x := fun x hx => hpw1.2.2 x hx d (by simp)
  refine ⟨?_, ?_, ?_⟩
  · rw [List.pairwise_append]
    refine ⟨hpw1.1, hpw2, ?_⟩
    intro x hx y hy
    exact lt_of_le_of_lt (hmem2 y hy).2 (hfront x hx)
  · intro y hy
    rcases List.mem_append.1 hy with hx | hx
    · exact hmem1 y (List.mem_append_left _ hx)
    · exact ⟨(hmem2 y hx).1, le_trans (hmem2 y hx).2 hda⟩
  · intro e he hea
    rcases hall1 e he hea with hin | hlt
    · rcases List.mem_append.1 hin with hx | hx
      · exact Or.inl (List.mem_append_left _ hx)
      · have hed : e = d := by simpa using hx
        exact Or.inl (List.mem_append_right _ (by simp [hed]))
    · have hed : e < d := hlt d (by simp)
      rcases hall2 e he (le_of_lt hed) with hin | hlt2
      · exact Or.inl (List.mem_append_right _ hin)
      · right
        intro y hy
        rcases List.mem_append.1 hy with hx | hx
        · exact hlt y (List.mem_append_left _ hx)
        · exact hlt2 y hx

/-- The first occurrences on or before an occurrence date `d` start with `d`. -/
theorem FirstOccurrences.head_eq {isOcc : Date → Prop} {d : Date} {k : Nat}
    {ds : List Date} (h : FirstOccurrences isOcc d k ds) (hk : 0 < k) (hd : isOcc d) :
    ∃ rest, ds = d :: rest := by
  obtain ⟨⟨hpw, hmem, hall⟩, _, hfew⟩ := h
  cases ds with
  | nil =>
    have := hfew (by simpa using hk) d hd (le_refl _)
    simp at this
  | cons x xs =>
    refine ⟨xs, ?_⟩
    have hx : x ≤ d := (hmem x (by simp)).2
    rcases hall d hd (le_refl _) with hin | hlt
    · rcases List.mem_cons.1 hin with h1 | h1
      · rw [h1]
      · have hdx : d < x := (List.pairwise_cons.1 hpw).1 d h1
        exact absurd hx (not_le_of_lt hdx)
    · have hdx : d < x := hlt x (by simp)
      exact absurd hx (not_le_of_lt hdx)

/-- A list-backed retrieval: the first `k` of the dates of a strictly decreasing
list that are on or before `a` are the first occurrences. -/
theorem firstOccurrences_filter_take (occ : List Date)
    (hocc : occ.Pairwise (fun x y => y < x)) (a : Date) (k : Nat) :
    FirstOccurrences (fun d => d ∈ occ) a k
      ((occ.filter (fun d => decide (d ≤ a))).take k) := by
  have hsplit := List.take_append_drop k (occ.filter (fun d => decide (d ≤ a)))
  have hpwf : (occ.filter (fun d => decide (d ≤ a))).Pairwise (fun x y => y < x) :=
    hocc.sublist (List.filter_sublist _)
  have hmemf : ∀ d ∈ occ.filter (fun d => decide (d ≤ a)), d ∈ occ ∧ d ≤ a := by
    intro d hd
    simpa using List.mem_filter.1 hd
  have hfull : OccurrencePrefix (fun d => d ∈ occ) a (occ.filter (fun d => decide (d ≤ a))) := by
    refine ⟨hpwf, hmemf, ?_⟩
    intro e he hea
    exact Or.inl (List.mem_filter.2 ⟨he, by simpa using hea⟩)
  refine ⟨?_, List.length_take_le _ _, ?_⟩
  · rw [← hsplit] at hfull
    exact hfull.of_append
  · intro hlt e he hea
    rw [List.length_take] at hlt
    have hle : (occ.filter (fun d => decide (d ≤ a))).length ≤ k := by omega
    rw [List.take_of_length_le hle]
    exact List.mem_filter.2 ⟨he, by simpa using hea⟩

/-- Two payments with the same date and owner are equal. -/
theorem Payment.eq_of_fields {p q : Payment} (hd : p.Date = q.Date)
    (hr : p.RecurringPayment = q.RecurringPayment) : p = q := by
  cases p
  cases q
  simp only [Payment.mk.injEq]
  exact ⟨hd, hr⟩

/-- C4. Load-more continuity of the detail view: when `rp.PaymentsSinceN(b, k)`
returns the first `k` occurrences of `rp` on or before `b`, and the request with
anchor `a` got 6 items, then the request whose `since` is the advertised cursor
renders a page that starts with the item cut off from the first page, and the
first page followed by the second is an initial segment of the occurrence
sequence on or before `a`, without a repeated item. -/
theorem load_more_continuity (w : World) (eng : Engine) (profile : Option Profile)
    (id s1 email : String) (rp : RecurringPayment) (a : Date) (isOcc : Date → Prop)
    (hemail : profileEmail profile = .ok email)
    (hstore : w.storeRecurringPayment id = .ok rp)
    (hs1 : (s1 = "" ∧ a = w.Today) ∨ (s1 ≠ "" ∧ w.ParseISO s1 = .ok a))
    (hret : ∀ (b : Date) (k : Int), 0 ≤ k →
      FirstOccurrences isOcc b k.toNat ((eng.rpPaymentsSinceN rp b k).map Payment.Date) ∧
      ∀ p ∈ eng.rpPaymentsSinceN rp b k, p.RecurringPayment = rp)
    (hlen : (eng.rpPaymentsSinceN rp a 6).length = 6) :
    ∃ (page1 : List Payment) (p6 : Payment),
      (getRecurringPayment w eng profile id s1).1 =
        .render (.RecurringPayment email rp page1 (some p6.Date)) ∧
      page1.length = 5 ∧
      eng.rpPaymentsSinceN rp a 6 = page1 ++ [p6] ∧
      ∀ s2 : String, s2 ≠ "" → w.ParseISO s2 = .ok p6.Date →
        ∃ (page2 : List Payment) (next2 : Option Date),
          (getRecurringPayment w eng profile id s2).1 =
            .render (.RecurringPayment email rp page2 next2) ∧
          page2.head? = some p6 ∧
          OccurrencePrefix isOcc a ((page1 ++ page2).map Payment.Date) ∧
          (page1 ++ page2).Nodup := by
  obtain ⟨h1, h1rp⟩ := hret a 6 (by omega)
  generalize hL1 : eng.rpPaymentsSinceN rp a 6 = L1 at h1 h1rp hlen
  obtain ⟨p6, hp6⟩ : ∃ p6, L1.drop 5 = [p6] :=
    List.length_eq_one.1 (by rw [List.length_drop]; omega)
  have hsplit : L1 = L1.take 5 ++ [p6] := by
    rw [← hp6, List.take_append_drop]
  have hget : L1.get? 5 = some p6 := by
    have h := congrArg List.head? hp6
    rw [List.head?_drop] at h
    simpa using h
  have hp6mem : p6 ∈ L1 := by rw [hsplit]; simp
  have hD1 : L1.map Payment.Date = (L1.take 5).map Payment.Date ++ [p6.Date] := by
    conv_lhs => rw [hsplit]
    simp
  have h1pre : OccurrencePrefix isOcc a ((L1.take 5).map Payment.Date ++ [p6.Date]) := by
    rw [← hD1]; exact h1.1
  have hocc6 : isOcc p6.Date := (h1pre.2.1 p6.Date (by simp)).1
  refine ⟨L1.take 5, p6, ?_, ?_, hsplit, ?_⟩
  · rw [getRecurringPayment_eq w eng profile id s1 email rp a hemail hstore hs1, hL1]
    simp only [if_pos hlen, hget, Option.map]
  · rw [List.length_take]; omega
  · intro s2 hne hparse
    obtain ⟨h2, h2rp⟩ := hret p6.Date 6 (by omega)
    rw [getRecurringPayment_eq w eng profile id s2 email rp p6.Date hemail hstore
      (Or.inr ⟨hne, hparse⟩)]
    generalize eng.rpPaymentsSinceN rp p6.Date 6 = L2 at h2 h2rp
    obtain ⟨rest, hrest⟩ := h2.head_eq (by decide) hocc6
    -- the second retrieval starts with the item that was cut off
    obtain ⟨L2t, hL2⟩ : ∃ L2t, L2 = p6 :: L2t := by
      cases L2 with
      | nil => simp at hrest
      | cons q qs =>
        refine ⟨qs, ?_⟩
        have hqd : q.Date = p6.Date := by simpa using (List.cons.inj hrest).1
        have hqr : q.RecurringPayment = rp := h2rp q (by simp)
        have hpr : p6.RecurringPayment = rp := h1rp p6 hp6mem
        have hq : q = p6 := Payment.eq_of_fields hqd (hqr.trans hpr.symm)
        rw [hq]
    -- whichever branch is taken, the rendered page is a non-empty initial segment
    have hpage : ∀ page2 : List Payment, (∃ u, L2 = page2 ++ u) → page2.head? = some p6 →
        OccurrencePrefix isOcc a ((L1.take 5 ++ page2).map Payment.Date) ∧
          (L1.take 5 ++ page2).Nodup := by
      intro page2 hu hhead
      obtain ⟨u, hu⟩ := hu
      obtain ⟨t, ht⟩ : ∃ t, page2 = p6 :: t := by
        cases page2 with
        | nil => simp at hhead
        | cons x xs => exact ⟨xs, by simpa using hhead⟩
      have h2pre : OccurrencePrefix isOcc p6.Date (p6.Date :: t.map Payment.Date) := by
        have h := h2.1
        rw [hu, ht, List.map_append] at h
        simpa using h.of_append
      have hglue := h1pre.glue h2pre
      have hmap : (L1.take 5 ++ page2).map Payment.Date =
          (L1.take 5).map Payment.Date ++ p6.Date :: t.map Payment.Date := by
        rw [ht]; simp
      rw [hmap]
      refine ⟨hglue, ?_⟩
      have hnd : ((L1.take 5 ++ page2).map Payment.Date).Nodup := by
        rw [hmap]
        exact hglue.1.imp (fun h => (ne_of_lt h).symm)
      exact hnd.of_map
    by_cases hlen2 : L2.length = 6
    · refine ⟨L2.take 5, _, by rw [if_pos hlen2], ?_, ?_⟩
      · rw [hL2]; rfl
      · exact hpage _ ⟨L2.drop 5, (List.take_append_drop 5 L2).symm⟩ (by rw [hL2]; rfl)
    · refine ⟨L2, _, by rw [if_neg hlen2], ?_, ?_⟩
      · rw [hL2]; rfl
      · exact hpage _ ⟨[], by simp⟩ (by rw [hL2]; rfl)

/-- The sample engine's single-payment retrieval returns the first occurrences
of `rentDates`. -/
theorem sampleEngine_firstOccurrences (rp : RecurringPayment) (b : Date) (k : Int) :
    FirstOccurrences (fun d => d ∈ rentDates) b k.toNat
        ((sampleEngine.rpPaymentsSinceN rp b k).map Payment.Date) ∧
      ∀ p ∈ sampleEngine.rpPaymentsSinceN rp b k, p.RecurringPayment = rp := by
  have hmap : (sampleEngine.rpPaymentsSinceN rp b k).map Payment.Date =
      (rentDates.filter (fun d => decide (d ≤ b))).take k.toNat := by
    simp [sampleEngine, List.map_map, Function.comp_def]
  refine ⟨?_, ?_⟩
  · rw [hmap]
    exact firstOccurrences_filter_take rentDates (by decide) b k.toNat
  · intro p hp
    simp only [sampleEngine, List.mem_map] at hp
    obtain ⟨d, _, rfl⟩ := hp
    rfl

/-- Instance of `load_more_continuity`: the detail view of `rent` on day 100,
then with `since=1970-02-20` (day 50). -/
theorem load_more_continuity_witness :
    ∃ (page1 : List Payment) (p6 : Payment),
      (getRecurringPayment sampleWorld sampleEngine none "a1" "").1 =
        .render (.RecurringPayment "" rent page1 (some p6.Date)) ∧
      page1.length = 5 ∧
      sampleEngine.rpPaymentsSinceN rent 100 6 = page1 ++ [p6] ∧
      ∀ s2 : String, s2 ≠ "" → sampleWorld.ParseISO s2 = .ok p6.Date →
        ∃ (page2 : List Payment) (next2 : Option Date),
          (getRecurringPayment sampleWorld sampleEngine none "a1" s2).1 =
            .render (.RecurringPayment "" rent page2 next2) ∧
          page2.head? = some p6 ∧
          OccurrencePrefix (fun d => d ∈ rentDates) 100
            ((page1 ++ page2).map Payment.Date) ∧
          (page1 ++ page2).Nodup :=
  load_more_continuity sampleWorld sampleEngine none "a1" "" "" rent 100
    (fun d => d ∈ rentDates) rfl rfl (Or.inl ⟨rfl, rfl⟩)
    (fun b k _ => sampleEngine_firstOccurrences rent b k) (by decide)

/-! ## The name filter -/

/-- Function `containsChars` decides whether `sub` is a contiguous part of `s`. -/
theorem containsChars_iff (s sub : List Char) :
    containsChars s sub = true ↔ sub <:+: s := by
  induction s with
  | nil => simp [containsChars]
  | cons c cs ih =>
    rw [containsChars, Bool.or_eq_true, ih, List.isPrefixOf_iff_prefix,
      List.infix_cons_iff]

/-- Case variants of an ASCII character have the same lower-case form. -/
theorem toLowerRune_caseVariant (u : Char → Char) (c d : Char) (hc : c.toNat < 128)
    (h : CaseVariant c d) : toLowerRune u c = toLowerRune u d := by
  rcases h with h | ⟨h1, h2, h3⟩ | ⟨h1, h2, h3⟩
  · rw [h]
  · have hd : d.toNat < 128 := by omega
    have hcd : Char.ofNat (c.toNat + 32) = d := by rw [← h3, Char.ofNat_toNat]
    unfold toLowerRune Char.toLower
    simp only [if_pos hc, if_pos hd]
    rw [if_pos ⟨h1, h2⟩, if_neg (by omega), hcd]
  · have hd : d.toNat < 128 := by omega
    have hdc : Char.ofNat (d.toNat + 32) = c := by rw [← h3, Char.ofNat_toNat]
    unfold toLowerRune Char.toLower
    simp only [if_pos hc, if_pos hd]
    rw [if_neg (by omega), if_pos ⟨h1, h2⟩, hdc]

/-- Case variants of a list of ASCII characters have the same lower-case form. -/
theorem map_toLowerRune_caseVariant (u : Char → Char) (xs ys : List Char)
    (hs : ∀ c ∈ xs, c.toNat < 128) (h : List.Forall₂ CaseVariant xs ys) :
    xs.map (toLowerRune u) = ys.map (toLowerRune u) := by
  induction h with
  | nil => rfl
  | cons hcd _ ih =>
    rw [List.map_cons, List.map_cons,
      toLowerRune_caseVariant u _ _ (hs _ (List.mem_cons_self _ _)) hcd,
      ih (fun c hc => hs c (List.mem_cons_of_mem _ hc))]

/-- Case variants of an ASCII string have the same lower-case form. -/
theorem ToLower_sameUpToCase (u : Char → Char) (s t : String) (hs : IsASCII s)
    (h : SameUpToCase s t) : ToLower u s = ToLower u t := by
  unfold ToLower
  rw [map_toLowerRune_caseVariant u s.data t.data hs h]

/-- C5. Name filter predicate: the closure `GET /render/payments` passes to the
retrieval accepts every payment when the query is empty; otherwise it accepts a
payment exactly when the lower-cased name of its recurring payment contains the
lower-cased query as a contiguous part. For ASCII strings the result is the same
for every change of letter case in the query or the name; the query `rent`
accepts the name `Rent` and rejects the name `Gym`. -/
theorem name_filter_predicate (w : World) (q : String) (p : Payment) :
    (q = "" → queryFilter w q p = true) ∧
    (q ≠ "" → (queryFilter w q p = true ↔
      (ToLower w.unicodeLower q).data <:+:
        (ToLower w.unicodeLower p.RecurringPayment.Name).data)) ∧
    (∀ (q2 : String) (p2 : Payment), IsASCII q → IsASCII p.RecurringPayment.Name →
      SameUpToCase q q2 → SameUpToCase p.RecurringPayment.Name p2.RecurringPayment.Name →
      queryFilter w q2 p2 = queryFilter w q p) ∧
    (p.RecurringPayment.Name = "Rent" → queryFilter w "rent" p = true) ∧
    (p.RecurringPayment.Name = "Gym" → queryFilter w "rent" p = false) := by
  refine ⟨?_, ?_, ?_, ?_, ?_⟩
  · intro h
    unfold queryFilter
    rw [if_pos h]
  · intro h
    unfold queryFilter Contains
    rw [if_neg h, containsChars_iff]
  · intro q2 p2 hq hn hqq hnn
    have hempty : q2 = "" ↔ q = "" := by
      unfold SameUpToCase at hqq
      constructor
      · intro h2
        rw [h2] at hqq
        have hlen := hqq.length_eq
        apply String.ext
        exact List.eq_nil_of_length_eq_zero (by simpa using hlen)
      · intro h1
        rw [h1] at hqq
        have hlen := hqq.length_eq
        apply String.ext
        exact List.eq_nil_of_length_eq_zero (by simpa using hlen.symm)
    unfold queryFilter
    rw [ToLower_sameUpToCase w.unicodeLower q q2 hq hqq,
      ToLower_sameUpToCase w.unicodeLower _ _ hn hnn]
    by_cases h : q = ""
    · rw [if_pos h, if_pos (hempty.2 h)]
    · rw [if_neg h, if_neg (fun h2 => h (hempty.1 h2))]
  · intro h
    unfold queryFilter
    rw [h]
    rfl
  · intro h
    unfold queryFilter
    rw [h]
    rfl

/-- Instance of `name_filter_predicate`: the query `RenT` accepts the name
`RENT` because `rent` accepts `Rent`. -/
theorem name_filter_predicate_witness :
    queryFilter sampleWorld "RenT" ⟨100, { rent with Name := "RENT" }⟩ =
      queryFilter sampleWorld "rent" ⟨100, rent⟩ :=
  (name_filter_predicate sampleWorld "rent" ⟨100, rent⟩).2.2.1 "RenT"
    ⟨100, { rent with Name := "RENT" }⟩ (by unfold IsASCII; decide)
    (by unfold IsASCII; decide)
    (by simp [SameUpToCase, CaseVariant]) (by simp [SameUpToCase, CaseVariant, rent])

/-! ## The query on the two payment lists -/

/-- An item of `xs[:hi]` is an item of `xs`. -/
theorem mem_of_sliceTo {α : Type} {xs ys : List α} {hi : Int} {x : α}
    (h : sliceTo xs hi = .ok ys) (hx : x ∈ ys) : x ∈ xs := by
  unfold sliceTo at h
  split_ifs at h
  · cases h
    exact List.mem_of_mem_take hx

/-- C6 as stated fails on the home route: `GET /?q=rent` renders the payments
of `gym` as well. -/
theorem home_query_leaves_payments_unfiltered :
    renderedPaymentsMatch sampleWorld "rent"
      (getRoot sampleWorld sampleEngine none "rent") = false := by
  decide

/-- C6, amended. For a non-empty query `q`: when the filtered retrieval returns
only payments its predicate accepts, every payment `GET /render/payments`
renders has a name containing `q` without regard to letter case; `GET /` uses
`q` to filter the list of recurring payments only, and renders the same
payments and next-page cursor as without a query. -/
theorem query_filtering (w : World) (eng : Engine) (profile : Option Profile)
    (sizeParam q email : String) (rps : List RecurringPayment) (hq : q ≠ "")
    (hret : ∀ rps since n filter, ∀ p ∈ eng.PaymentsSinceNFilter rps since n filter,
      filter p = true)
    (hemail : profileEmail profile = .ok email)
    (hstore : w.storeRecurringPayments = .ok rps) :
    renderedPaymentsMatch w q (getRenderPayments w eng sizeParam q) = true ∧
    ∃ data data0 : HomeData,
      getRoot w eng profile q = .render (.Home data) ∧
      getRoot w eng profile "" = .render (.Home data0) ∧
      data.RecurringPayments = rps.filter (nameMatches w q) ∧
      data0.RecurringPayments = rps ∧
      data.Payments = data0.Payments ∧
      data.NextPayments = data0.NextPayments := by
  constructor
  · unfold getRenderPayments
    cases w.Atoi sizeParam with
    | error e => rfl
    | ok size =>
      simp only [hstore]
      have hall : ∀ p ∈ eng.PaymentsSinceNFilter rps w.Today (wrapInt (size + 1))
          (queryFilter w q), nameMatches w q p.RecurringPayment = true := by
        intro p hp
        have := hret _ _ _ _ p hp
        unfold queryFilter at this
        rw [if_neg hq] at this
        exact this
      split_ifs with hlen
      · cases hs : sliceTo (eng.PaymentsSinceNFilter rps w.Today (wrapInt (size + 1))
          (queryFilter w q)) size with
        | error m => rfl
        | ok ys =>
          simp only [Except.map, renderedPaymentsMatch, List.all_eq_true]
          exact fun p hp => hall p (mem_of_sliceTo hs hp)
      · simp only [renderedPaymentsMatch, List.all_eq_true]
        exact hall
  · unfold getRoot
    simp only [hemail, hstore]
    by_cases hlen : ((eng.PaymentsSinceN rps w.Today 11).length : Int) = 11
    · rw [if_pos hlen, sliceTo_eq_ok _ _ (by omega) (by omega)]
      simp only [Except.map, if_pos hq]
      exact ⟨_, _, rfl, rfl, rfl, rfl, rfl, rfl⟩
    · rw [if_neg hlen]
      simp only [if_pos hq]
      exact ⟨_, _, rfl, rfl, rfl, rfl, rfl, rfl⟩

/-- Instance of `query_filtering`: the sample engine with the query `rent`. -/
theorem query_filtering_witness :
    renderedPaymentsMatch sampleWorld "rent"
      (getRenderPayments sampleWorld sampleEngine "2" "rent") = true :=
  (query_filtering sampleWorld sampleEngine none "2" "rent" "" [rent, gym] (by decide)
    (fun _ _ _ _ p hp => (List.mem_filter.1 (List.mem_of_mem_take hp)).2) rfl rfl).1

/-! ## Creation (`POST /create`) -/

/-- C8 as stated fails: for the form `name=Netflix&debt=on` the handler hands
the store a recurring payment whose cadence is empty. -/
theorem postCreate_stores_empty_cadence :
    ∃ rp : RecurringPayment,
      Effect.CreateRecurringPayment rp ∈ (postCreate sampleWorld (.ok sampleForm)).2 ∧
      rp.Cadence = Cadence.empty :=
  ⟨{ ID := "c3", Name := "Netflix", Enabled := true, Debt := true,
     Cadence := Cadence.empty }, by decide, rfl⟩

/-- C8, amended. Every recurring payment `POST /create` hands to the store has
the fresh identifier, the submitted name, `Enabled` set, `Debt` set exactly when
the `debt` field is `on`, and a cadence left at its zero value; for a form that
parses there is exactly one such store call. -/
theorem postCreate_stored_value (w : World) (form : Except String (String → String)) :
    (∀ rp : RecurringPayment, Effect.CreateRecurringPayment rp ∈ (postCreate w form).2 →
      ∃ get : String → String, form = .ok get ∧
        rp = { ID := w.NewString, Name := get "name", Enabled := true,
               Debt := decide (get "debt" = "on"), Cadence := Cadence.empty }) ∧
    (∀ get : String → String, form = .ok get →
      (postCreate w form).2 =
        [Effect.Println (get "debt"),
         Effect.CreateRecurringPayment
           { ID := w.NewString, Name := get "name", Enabled := true,
             Debt := decide (get "debt" = "on"), Cadence := Cadence.empty }]) := by
  have hlog : ∀ get : String → String, (postCreate w (.ok get)).2 =
      [Effect.Println (get "debt"),
       Effect.CreateRecurringPayment
         { ID := w.NewString, Name := get "name", Enabled := true,
           Debt := decide (get "debt" = "on"), Cadence := Cadence.empty }] := by
    intro get
    unfold postCreate
    simp only
    cases w.storeCreateRecurringPayment _ <;> rfl
  constructor
  · intro rp hrp
    cases form with
    | error e => simp [postCreate] at hrp
    | ok get =>
      rw [hlog get] at hrp
      refine ⟨get, rfl, ?_⟩
      simpa using hrp
  · intro get hget
    rw [hget, hlog get]

/-- Instance of `postCreate_stored_value`: the form `name=Netflix&debt=on`. -/
theorem postCreate_stored_value_witness :
    (postCreate sampleWorld (.ok sampleForm)).2 =
      [Effect.Println (sampleForm "debt"),
       Effect.CreateRecurringPayment
         { ID := sampleWorld.NewString, Name := sampleForm "name", Enabled := true,
           Debt := decide (sampleForm "debt" = "on"), Cadence := Cadence.empty }] :=
  (postCreate_stored_value sampleWorld (.ok sampleForm)).2 sampleForm rfl

/-! ## The profile's email -/

/-- C10 as stated fails: for a profile that is present but has no `email`
entry, and for one whose `email` is a number, the type assertion fails and the
three handlers panic. -/
theorem profile_without_string_email_panics :
    getCreate (some [("name", Any.str "Ann")]) =
      .panic "interface conversion: interface {} is not string" ∧
    getRoot sampleWorld sampleEngine (some [("name", Any.str "Ann")]) "" =
      .panic "interface conversion: interface {} is not string" ∧
    (getRecurringPayment sampleWorld sampleEngine (some [("email", Any.num 7)]) "a1" "").1 =
      .panic "interface conversion: interface {} is not string" := by
  decide

/-- C10, amended. For a profile that is present and whose `email` entry is a
string the extraction yields that string; without a profile the email is the
empty string; the extraction of a present profile fails exactly when its
`email` entry is not a string, and then each of the three handlers panics. -/
theorem profileEmail_total_on_string (w : World) (eng : Engine) (profile : Profile)
    (q id sinceParam : String) :
    (∀ s, profile.read "email" = Any.str s →
      profileEmail (some profile) = .ok s ∧
      getCreate (some profile) = .render (.RecurringPaymentCreate s)) ∧
    profileEmail none = .ok "" ∧
    getCreate none = .render (.RecurringPaymentCreate "") ∧
    ((∃ m, profileEmail (some profile) = .error m) ↔
      ∀ s, profile.read "email" ≠ Any.str s) ∧
    (∀ m, profileEmail (some profile) = .error m →
      getRoot w eng (some profile) q = .panic m ∧
      getRecurringPayment w eng (some profile) id sinceParam = (.panic m, []) ∧
      getCreate (some profile) = .panic m) := by
  refine ⟨?_, rfl, rfl, ?_, ?_⟩
  · intro s hs
    have h : profileEmail (some profile) = .ok s := by
      simp only [profileEmail, hs, assertString]
    refine ⟨h, ?_⟩
    unfold getCreate
    rw [h]
  · simp only [profileEmail]
    cases profile.read "email" <;> simp [assertString]
  · intro m hm
    refine ⟨?_, ?_, ?_⟩
    · unfold getRoot
      rw [hm]
    · unfold getRecurringPayment
      rw [hm]
    · unfold getCreate
      rw [hm]

/-- Instance of `profileEmail_total_on_string`: a profile with a string email. -/
theorem profileEmail_total_on_string_witness :
    profileEmail (some [("email", Any.str "ann@example.org")]) = .ok "ann@example.org" ∧
    getCreate (some [("email", Any.str "ann@example.org")]) =
      .render (.RecurringPaymentCreate "ann@example.org") :=
  (profileEmail_total_on_string sampleWorld sampleEngine
    [("email", Any.str "ann@example.org")] "" "a1" "").1 "ann@example.org" (by decide)

end Finserve
